import Mathlib

/-!
Shallow embedding of `src/ml_module/main.py` (SQL-log anomaly monitor):
the feature extractor, the dangerous-pattern rule matcher, the
rule+model classifier `check_dangerous_queries`, and trace models of the
`monitor_logs` cycle and the `main` startup sequence.

Strings are modelled as Lean `String`/`List Char`; Python's `str.lower`,
`\w` and `\s` are modelled on their ASCII behaviour (the queries involved
are ASCII SQL text).
-/

namespace MLModule

/-- ASCII model of Python's regex `\w` class: alphanumerics and underscore. -/
def isWordChar (c : Char) : Bool := c.isAlphanum || c == '_'

/-- ASCII model of Python's regex `\s` class. -/
def isSpaceChar (c : Char) : Bool :=
  c == ' ' || c == '\t' || c == '\n' || c == '\r' || c == '\x0b' || c == '\x0c'

/-- Model of Python's `query.lower()` (ASCII case folding), as a char list. -/
def lowered (q : String) : List Char := q.toList.map Char.toLower

/-- Whether `w` a prefix of `s` (char-by-char comparison). -/
def leadsWith : List Char → List Char → Bool
  | [], _ => true
  | _ :: _, [] => false
  | a :: as, b :: bs => a == b && leadsWith as bs

/-- Boundary test after a token match: end of string or a non-word char
(the trailing `\b` of `\bTOKEN\b`, for tokens ending in a word char). -/
def boundaryAfter : List Char → Bool
  | [] => true
  | c :: _ => !isWordChar c

/-- Scanner for `len(re.findall(r'\bTOKEN\b', query, re.IGNORECASE))`:
counts non-overlapping occurrences of the (non-empty, lowered) token `w`
in the lowered text, requiring word boundaries on both sides. `skip`
counts chars of an already-recognized match still to be consumed; `prevW`
records whether the previous char was a word char. -/
def countTokAux (w : List Char) : Nat → Bool → List Char → Nat
  | _, _, [] => 0
  | skip + 1, _, c :: cs => countTokAux w skip (isWordChar c) cs
  | 0, prevW, c :: cs =>
    if !prevW && leadsWith w (c :: cs) && boundaryAfter ((c :: cs).drop w.length) then
      1 + countTokAux w (w.length - 1) (isWordChar c) cs
    else
      countTokAux w 0 (isWordChar c) cs

/-- Case-insensitive whole-word occurrence count of `w` in `q`. -/
def countTok (w q : String) : Nat :=
  match lowered w with
  | [] => 0
  | a :: as => countTokAux (a :: as) 0 false (lowered q)

/-- Scanner for `len(re.findall(r';--', query))`: case-sensitive
non-overlapping occurrences of the literal sequence `w`. -/
def countSeqAux (w : List Char) : Nat → List Char → Nat
  | _, [] => 0
  | skip + 1, _ :: cs => countSeqAux w skip cs
  | 0, c :: cs =>
    if leadsWith w (c :: cs) then 1 + countSeqAux w (w.length - 1) cs
    else countSeqAux w 0 cs

/-- Case-sensitive literal occurrence count of `w` in `q`. -/
def countSeq (w q : String) : Nat :=
  match w.toList with
  | [] => 0
  | a :: as => countSeqAux (a :: as) 0 q.toList

/-- `extract_features(query)` (main.py lines 57-66): the 6-feature vector
`[len(query), #SELECT, #WHERE, #JOIN, #';--', #UNION]`. -/
def extract_features (q : String) : List Nat :=
  [ q.length,
    countTok "SELECT" q,
    countTok "WHERE" q,
    countTok "JOIN" q,
    countSeq ";--" q,
    countTok "UNION" q ]

/-- Elements of the regular expressions appearing in `DANGEROUS_PATTERNS`:
literal chars, `class+`, `class*`, and a negative lookahead `(?!text)`. -/
inductive RElem where
  | lit (c : Char)
  | plus (p : Char → Bool)
  | star (p : Char → Bool)
  | nla (t : List Char)

/-- All suffixes of `s` reachable by consuming zero or more chars
satisfying `p` from the front (the candidate continuation points of a
`p*` / `p+` quantifier under backtracking). -/
def starSuffixes (p : Char → Bool) : List Char → List (List Char)
  | [] => [[]]
  | c :: cs => (c :: cs) :: (if p c then starSuffixes p cs else [])

/-- Backtracking matcher in continuation style: does some prefix of `s`
match the element sequence `es`, with the rest accepted by `k`? -/
def matchK : List RElem → List Char → (List Char → Bool) → Bool
  | [], s, k => k s
  | .lit _ :: _, [], _ => false
  | .lit c :: es, d :: ds, k => c == d && matchK es ds k
  | .plus _ :: _, [], _ => false
  | .plus p :: es, d :: ds, k => p d && (starSuffixes p ds).any fun r => matchK es r k
  | .star p :: es, s, k => (starSuffixes p s).any fun r => matchK es r k
  | .nla t :: es, s, k => !leadsWith t s && matchK es s k

/-- Does a prefix of `s` match `es`? -/
def matchElems (es : List RElem) (s : List Char) : Bool :=
  matchK es s fun _ => true

/-- Model of `re.search(pattern, s)` as a Boolean: does the pattern match
at some position of `s`? -/
def searchP (es : List RElem) (s : List Char) : Bool :=
  s.tails.any (matchElems es)

/-- Literal regex text as a sequence of `.lit` elements. -/
def lits (s : String) : List RElem := s.toList.map .lit

def wsPlus : RElem := .plus isSpaceChar
def wsStar : RElem := .star isSpaceChar
def wordPlus : RElem := .plus isWordChar

/-- `r'delete\s+from\s+\w+\s*(?!where)'`. -/
def pat_delete : List RElem :=
  lits "delete" ++ [wsPlus] ++ lits "from" ++ [wsPlus, wordPlus, wsStar, .nla "where".toList]

/-- The DELETE pattern with its trailing lookahead removed (used to show
the lookahead is vacuous). -/
def pat_delete_nowhere : List RElem :=
  lits "delete" ++ [wsPlus] ++ lits "from" ++ [wsPlus, wordPlus]

/-- `r'update\s+\w+\s+set\s+\w+\s*=\s*\w+\s*(?!where)'`. -/
def pat_update : List RElem :=
  lits "update" ++ [wsPlus, wordPlus, wsPlus] ++ lits "set" ++
    [wsPlus, wordPlus, wsStar, .lit '=', wsStar, wordPlus, wsStar, .nla "where".toList]

/-- The UPDATE pattern with its trailing lookahead removed. -/
def pat_update_nowhere : List RElem :=
  lits "update" ++ [wsPlus, wordPlus, wsPlus] ++ lits "set" ++
    [wsPlus, wordPlus, wsStar, .lit '=', wsStar, wordPlus]

/-- `DANGEROUS_PATTERNS` (main.py lines 45-55), each with the Python
regex source text that the code returns as the verdict's reason. -/
def DANGEROUS_PATTERNS : List (String × List RElem) :=
  [ ("drop\\s+database", lits "drop" ++ [wsPlus] ++ lits "database"),
    ("truncate\\s+table", lits "truncate" ++ [wsPlus] ++ lits "table"),
    ("delete\\s+from\\s+\\w+\\s*(?!where)", pat_delete),
    ("alter\\s+table\\s+\\w+\\s+drop",
      lits "alter" ++ [wsPlus] ++ lits "table" ++ [wsPlus, wordPlus, wsPlus] ++ lits "drop"),
    (";\\s*--", [.lit ';', wsStar, .lit '-', .lit '-']),
    ("1\\s*=\\s*1", [.lit '1', wsStar, .lit '=', wsStar, .lit '1']),
    ("union\\s+select", lits "union" ++ [wsPlus] ++ lits "select"),
    ("insert\\s+into\\s+\\w+\\s+values",
      lits "insert" ++ [wsPlus] ++ lits "into" ++ [wsPlus, wordPlus, wsPlus] ++ lits "values"),
    ("update\\s+\\w+\\s+set\\s+\\w+\\s*=\\s*\\w+\\s*(?!where)", pat_update) ]

/-- The rule-matcher loop of `check_dangerous_queries` (lines 125-128):
lower the query, return the first pattern that matches, if any. -/
def ruleMatch (q : String) : Option String :=
  (DANGEROUS_PATTERNS.find? fun pr => searchP pr.2 (lowered q)).map Prod.fst

/-- State of the global `IsolationForest` model: whether it has been fit
(`hasattr(model, 'estimators_')`), and its `predict` on a feature vector
(returning -1 for anomaly, 1 for normal; `Except` models a raised
exception, caught by the classifier). -/
structure DetectorModel where
  trained : Bool
  predict : List Nat → Except String Int

/-- `check_dangerous_queries(query)` (main.py lines 120-139), given the
model state. Order is exactly the source's: untrained guard first, then
the rule loop, then the ML prediction with its try/except. -/
def check_dangerous_queries (m : DetectorModel) (q : String) : Bool × Option String :=
  if m.trained = false then (false, some "Модель не обучена")
  else
    match ruleMatch q with
    | some pat => (true, some pat)
    | none =>
      match m.predict (extract_features q) with
      | .ok p => if p = -1 then (true, some "ML-аномалия") else (false, none)
      | .error e => (false, some e)

/-- One Elasticsearch hit as `monitor_logs` reads it: the `@timestamp`
field and the `postgresql.message` field (empty string when missing). -/
structure Hit where
  timestamp : String
  message : String

/-- The environment one `monitor_logs` cycle runs against: whether
`check_connections` succeeds (bot reachable and `es.ping()` true), the
content of `last_checked_time.txt` (`none` when absent or empty), the
store's response to the range query as a function of that cursor
(`Except` models `es.search` raising), and the global model state. -/
structure CycleEnv where
  connectionsOk : Bool
  checkpointFile : Option String
  store : Option String → Except String (List Hit)
  model : DetectorModel

/-- Observable events of one `monitor_logs` cycle, in program order. -/
inductive Event where
  | connFailAlert
  | processExit
  | cycleErrorAlert (e : String)
  | checkpointWrite (t : String)
  | classified (msg : String) (verdict : Bool × Option String)
  | anomalyAlert (timestamp msg : String) (reason : Option String)
deriving DecidableEq

/-- The per-record body of the `for hit in res['hits']['hits']` loop
(main.py lines 197-211): skip empty messages, classify, alert when
dangerous. -/
def processHit (m : DetectorModel) (h : Hit) : List Event :=
  if h.message = "" then []
  else
    let v := check_dangerous_queries m h.message
    .classified h.message v ::
      (if v.1 then [.anomalyAlert h.timestamp h.message v.2] else [])

/-- Event trace of one `monitor_logs` cycle (main.py lines 164-216).
`check_connections` failure sends an alert and calls `exit(1)`, whose
`SystemExit` escapes the cycle's `except Exception` handler
(`processExit`). A search failure is caught by that handler and alerted.
On a non-empty result the new checkpoint is written to the file first
(lines 192-195), then the records are classified. -/
def monitor_logs (env : CycleEnv) : List Event :=
  if env.connectionsOk = false then [.connFailAlert, .processExit]
  else
    match env.store env.checkpointFile with
    | .error e => [.cycleErrorAlert e]
    | .ok hits =>
      match hits.getLast? with
      | none => []
      | some lastHit =>
        .checkpointWrite lastHit.timestamp :: hits.flatMap (processHit env.model)

/-- How `main()` (main.py lines 218-244) ends its startup sequence. -/
inductive MainOutcome where
  | exitAtHealthCheck
  | abortNoTraining
  | schedulerStarted
deriving DecidableEq

/-- The value of `trained` after the retry loop of `main()` (lines
223-231): an attempt either returns a Bool (`train_model`'s result) or
raises (`.error`, caught by the loop's `except`); the loop breaks on the
first `True` and makes at most 3 attempts. -/
def trainedAfterAttempts (attempts : List (Except String Bool)) : Bool :=
  (attempts.take 3).any fun a =>
    match a with
    | .ok true => true
    | _ => false

/-- Outcome of `main()`: exit at the initial `check_connections`; alert
and return without starting the scheduler when `trained` is still false
after the retry loop (lines 233-236); otherwise start the scheduler
(lines 239-241, reached only with a trained model). -/
def mainOutcome (connOk : Bool) (attempts : List (Except String Bool)) : MainOutcome :=
  if connOk = false then .exitAtHealthCheck
  else if trainedAfterAttempts attempts then .schedulerStarted
  else .abortNoTraining

/-- A trained model whose predictions are irrelevant to the scenario. -/
def trainedModel : DetectorModel := ⟨true, fun _ => .ok 1⟩

/-- An untrained model (no `estimators_` attribute). -/
def untrainedModel : DetectorModel := ⟨false, fun _ => .ok 1⟩

/-- A trained model that predicts every feature vector anomalous. -/
def anomalousModel : DetectorModel := ⟨true, fun _ => .ok (-1)⟩

/-- Modelled from the spec: a query "containing an unqualified DELETE (a
DELETE with no WHERE clause)" — it contains `delete from <identifier>`
case-insensitively and holds no WHERE token at all. -/
def specUnqualifiedDelete (q : String) : Bool :=
  searchP pat_delete_nowhere (lowered q) && (countTok "WHERE" q == 0)

/-- Concrete healthy environment whose poll returns one record carrying
an unqualified DELETE. -/
def oneDeleteEnv : CycleEnv where
  connectionsOk := true
  checkpointFile := none
  store := fun _ => .ok [⟨"2024-05-01T10:00:00Z", "delete from users"⟩]
  model := trainedModel

/-- Environment in which the log store or the notification channel is
unreachable (`check_connections` fails). -/
def connDownEnv : CycleEnv where
  connectionsOk := false
  checkpointFile := none
  store := fun _ => .ok []
  model := trainedModel

/-- Healthy connections, but `es.search` raises during the cycle. -/
def searchFailEnv : CycleEnv where
  connectionsOk := true
  checkpointFile := none
  store := fun _ => .error "ConnectionTimeout"
  model := trainedModel

theorem leadsWith_nil_false (a : Char) (as : List Char) :
    leadsWith (a :: as) [] = false := rfl

theorem starSuffixes_ne_nil (p : Char → Bool) (s : List Char) :
    starSuffixes p s ≠ [] := by
  cases s <;> simp [starSuffixes]

theorem mem_starSuffixes_self (p : Char → Bool) (s : List Char) :
    s ∈ starSuffixes p s := by
  cases s <;> simp [starSuffixes]

theorem dropWhile_mem_starSuffixes (p : Char → Bool) :
    ∀ s : List Char, s.dropWhile p ∈ starSuffixes p s := by
  intro s
  induction s with
  | nil => simp [starSuffixes]
  | cons c cs ih =>
    by_cases hc : p c = true
    · simp [starSuffixes, List.dropWhile_cons, hc, ih]
    · simp [starSuffixes, List.dropWhile_cons, hc]

theorem dropWhile_head_false (p : Char → Bool) :
    ∀ (l : List Char) (c : Char) (t : List Char), l.dropWhile p = c :: t → p c = false := by
  intro l
  induction l with
  | nil => intro c t h; simp [List.dropWhile] at h
  | cons a as ih =>
    intro c t h
    by_cases ha : p a = true
    · exact ih c t (by simpa [List.dropWhile_cons, ha] using h)
    · rw [List.dropWhile_cons, if_neg (by simp [ha])] at h
      cases h
      simpa using ha

theorem matchK_append (b : List RElem) :
    ∀ (a : List RElem) (s : List Char) (k : List Char → Bool),
      matchK (a ++ b) s k = matchK a s fun r => matchK b r k := by
  intro a
  induction a with
  | nil => intro s k; rfl
  | cons e es ih =>
    intro s k
    cases e with
    | lit c =>
      cases s with
      | nil => rfl
      | cons d ds => simp only [List.cons_append, matchK, List.append_eq, ih]
    | plus p =>
      cases s with
      | nil => rfl
      | cons d ds => simp only [List.cons_append, matchK, List.append_eq, ih]
    | star p => simp only [List.cons_append, matchK, List.append_eq, ih]
    | nla t => simp only [List.cons_append, matchK, List.append_eq, ih]

theorem matchK_mono :
    ∀ (es : List RElem) (s : List Char) (k k' : List Char → Bool),
      (∀ r, k r = true → k' r = true) →
      matchK es s k = true → matchK es s k' = true := by
  intro es
  induction es with
  | nil => intro s k k' hk h; exact hk s h
  | cons e es ih =>
    intro s k k' hk h
    cases e with
    | lit c =>
      cases s with
      | nil => exact absurd h (by simp [matchK])
      | cons d ds =>
        simp only [matchK, Bool.and_eq_true] at h ⊢
        exact ⟨h.1, ih ds k k' hk h.2⟩
    | plus p =>
      cases s with
      | nil => exact absurd h (by simp [matchK])
      | cons d ds =>
        simp only [matchK, Bool.and_eq_true, List.any_eq_true] at h ⊢
        obtain ⟨hd, r, hr, hm⟩ := h
        exact ⟨hd, r, hr, ih r k k' hk hm⟩
    | star p =>
      simp only [matchK, List.any_eq_true] at h ⊢
      obtain ⟨r, hr, hm⟩ := h
      exact ⟨r, hr, ih r k k' hk hm⟩
    | nla t =>
      simp only [matchK, Bool.and_eq_true] at h ⊢
      exact ⟨h.1, ih s k k' hk h.2⟩

/-- The tail `\w+\s*(?!t)` accepts exactly when `\w+` alone does,
whenever the lookahead text `t` starts with a word char: after taking
the maximal run of word chars for `\w+` and the empty match for `\s*`,
the lookahead position either ends the string or holds a non-word char. -/
theorem tail_lookahead_vacuous (t : List Char) (w : Char) (rest : List Char)
    (hw : t = w :: rest) (hword : isWordChar w = true) (s : List Char) :
    matchK [wordPlus, wsStar, .nla t] s (fun _ => true) =
      matchK [wordPlus] s (fun _ => true) := by
  rw [Bool.eq_iff_iff]
  constructor
  · intro h
    have h' : matchK ([wordPlus] ++ [wsStar, .nla t]) s (fun _ => true) = true := h
    rw [matchK_append] at h'
    exact matchK_mono _ _ _ _ (fun r _ => rfl) h'
  · intro h
    cases s with
    | nil => exact absurd h (by simp [matchK, wordPlus])
    | cons d ds =>
      have hd : isWordChar d = true := by
        simp only [matchK, wordPlus, Bool.and_eq_true] at h
        exact h.1
      have hlw : leadsWith t (ds.dropWhile isWordChar) = false := by
        subst hw
        cases hr : ds.dropWhile isWordChar with
        | nil => rfl
        | cons c t' =>
          have hc : isWordChar c = false := dropWhile_head_false _ _ _ _ hr
          have hwc : (w == c) = false := by
            cases hb : (w == c)
            · rfl
            · rw [← eq_of_beq hb] at hc
              rw [hword] at hc
              exact absurd hc (by simp)
          simp [leadsWith, hwc]
      simp only [matchK, wordPlus, wsStar, Bool.and_eq_true, List.any_eq_true]
      refine ⟨hd, ds.dropWhile isWordChar, dropWhile_mem_starSuffixes _ _, ?_⟩
      refine ⟨ds.dropWhile isWordChar, mem_starSuffixes_self _ _, ?_⟩
      simp [matchK, hlw]

/-- A pattern ending in `\w+\s*(?!where)` searches identically to the
same pattern with the lookahead removed. -/
theorem searchP_lookahead_vacuous (pre : List RElem) (s : List Char) :
    searchP (pre ++ [wordPlus, wsStar, .nla "where".toList]) s =
      searchP (pre ++ [wordPlus]) s := by
  unfold searchP matchElems
  have key : ∀ r : List Char,
      matchK (pre ++ [wordPlus, wsStar, .nla "where".toList]) r (fun _ => true) =
        matchK (pre ++ [wordPlus]) r (fun _ => true) := by
    intro r
    rw [matchK_append, matchK_append]
    have : (fun r' => matchK [wordPlus, wsStar, .nla "where".toList] r' fun _ => true) =
        fun r' => matchK [wordPlus] r' fun _ => true :=
      funext fun r' =>
        tail_lookahead_vacuous "where".toList 'w' "here".toList (by decide) (by decide) r'
    rw [this]
  exact congrArg _ (funext key)

theorem searchP_delete_eq (s : List Char) :
    searchP pat_delete s = searchP pat_delete_nowhere s := by
  have h := searchP_lookahead_vacuous
    (lits "delete" ++ [wsPlus] ++ lits "from" ++ [wsPlus]) s
  have e1 : pat_delete =
      (lits "delete" ++ [wsPlus] ++ lits "from" ++ [wsPlus]) ++
        [wordPlus, wsStar, .nla "where".toList] := by
    simp [pat_delete]
  have e2 : pat_delete_nowhere =
      (lits "delete" ++ [wsPlus] ++ lits "from" ++ [wsPlus]) ++ [wordPlus] := by
    simp [pat_delete_nowhere]
  rw [e1, e2]
  exact h

theorem searchP_update_eq (s : List Char) :
    searchP pat_update s = searchP pat_update_nowhere s := by
  have h := searchP_lookahead_vacuous
    (lits "update" ++ [wsPlus, wordPlus, wsPlus] ++ lits "set" ++
      [wsPlus, wordPlus, wsStar, .lit '=', wsStar]) s
  have e1 : pat_update =
      (lits "update" ++ [wsPlus, wordPlus, wsPlus] ++ lits "set" ++
        [wsPlus, wordPlus, wsStar, .lit '=', wsStar]) ++
        [wordPlus, wsStar, .nla "where".toList] := by
    simp [pat_update]
  have e2 : pat_update_nowhere =
      (lits "update" ++ [wsPlus, wordPlus, wsPlus] ++ lits "set" ++
        [wsPlus, wordPlus, wsStar, .lit '=', wsStar]) ++ [wordPlus] := by
    simp [pat_update_nowhere]
  rw [e1, e2]
  exact h

theorem processHit_events (m : DetectorModel) (h : Hit) (e : Event)
    (he : e ∈ processHit m h) :
    (∃ msg v, e = .classified msg v) ∨ (∃ t msg r, e = .anomalyAlert t msg r) := by
  unfold processHit at he
  by_cases hm : h.message = ""
  · simp [hm] at he
  · rw [if_neg hm] at he
    rcases List.mem_cons.mp he with h1 | h2
    · exact Or.inl ⟨_, _, h1⟩
    · by_cases hd : (check_dangerous_queries m h.message).1 = true
      · rw [if_pos hd] at h2
        exact Or.inr ⟨_, _, _, List.mem_singleton.mp h2⟩
      · rw [if_neg hd] at h2
        exact absurd h2 (List.not_mem_nil e)

theorem checkpointWrite_not_in_batch (m : DetectorModel) (hits : List Hit) (t : String) :
    Event.checkpointWrite t ∉ hits.flatMap (processHit m) := by
  intro hmem
  obtain ⟨h, -, he⟩ := List.mem_flatMap.mp hmem
  rcases processHit_events m h _ he with ⟨msg, v, hc⟩ | ⟨ts, msg, r, hc⟩ <;> simp at hc

theorem processExit_not_in_batch (m : DetectorModel) (hits : List Hit) :
    Event.processExit ∉ hits.flatMap (processHit m) := by
  intro hmem
  obtain ⟨h, -, he⟩ := List.mem_flatMap.mp hmem
  rcases processHit_events m h _ he with ⟨msg, v, hc⟩ | ⟨ts, msg, r, hc⟩ <;> simp at hc

theorem monitor_logs_conn_false (env : CycleEnv) (h : env.connectionsOk = false) :
    monitor_logs env = [.connFailAlert, .processExit] := by
  unfold monitor_logs
  rw [if_pos h]

theorem monitor_logs_store_error (env : CycleEnv) (e : String)
    (h : env.connectionsOk = true) (hs : env.store env.checkpointFile = .error e) :
    monitor_logs env = [.cycleErrorAlert e] := by
  unfold monitor_logs
  rw [if_neg (by simp [h]), hs]

theorem monitor_logs_empty (env : CycleEnv) (hits : List Hit)
    (h : env.connectionsOk = true) (hs : env.store env.checkpointFile = .ok hits)
    (hl : hits.getLast? = none) : monitor_logs env = [] := by
  unfold monitor_logs
  rw [if_neg (by simp [h]), hs]
  simp [hl]

theorem monitor_logs_nonempty (env : CycleEnv) (hits : List Hit) (lastHit : Hit)
    (h : env.connectionsOk = true) (hs : env.store env.checkpointFile = .ok hits)
    (hl : hits.getLast? = some lastHit) :
    monitor_logs env =
      .checkpointWrite lastHit.timestamp :: hits.flatMap (processHit env.model) := by
  unfold monitor_logs
  rw [if_neg (by simp [h]), hs]
  simp [hl]

/-- C7: `extract_features` is a total deterministic function of the
query text returning a fixed-length 6-feature vector, and on the empty
string the length feature and all five token counts are 0. -/
theorem extract_features_spec :
    (∀ q : String, (extract_features q).length = 6) ∧
      extract_features "" = [0, 0, 0, 0, 0, 0] :=
  ⟨fun _ => rfl, by decide⟩

/-- C6: with an untrained model, `check_dangerous_queries` returns
deterministically; for input matching no rule pattern the verdict is
not-dangerous with the untrained reason (the code returns this reason
for every input before even consulting the rules). -/
theorem untrained_model_returns_untrained_reason (m : DetectorModel) (q : String)
    (hm : m.trained = false) (hq : ruleMatch q = none) :
    check_dangerous_queries m q = (false, some "Модель не обучена") := by
  unfold check_dangerous_queries
  rw [hm]
  simp

theorem untrained_model_returns_untrained_reason_witness :
    check_dangerous_queries untrainedModel "select name from users" =
      (false, some "Модель не обучена") :=
  untrained_model_returns_untrained_reason untrainedModel "select name from users"
    rfl (by decide)

/-- C8: rule matching is case-insensitive — queries with the same ASCII
lowercase image match exactly the same pattern, and `"DROP DATABASE x"`
and `"drop database x"` both match the drop-database pattern. -/
theorem rule_matching_case_insensitive :
    (∀ (q₁ q₂ p : String), lowered q₁ = lowered q₂ →
        (ruleMatch q₁ = some p ↔ ruleMatch q₂ = some p)) ∧
      ruleMatch "DROP DATABASE x" = some "drop\\s+database" ∧
      ruleMatch "drop database x" = some "drop\\s+database" := by
  refine ⟨fun q₁ q₂ p h => ?_, by decide, by decide⟩
  unfold ruleMatch
  rw [h]

theorem rule_matching_case_insensitive_witness :
    ruleMatch "DELETE FROM t" = some "delete\\s+from\\s+\\w+\\s*(?!where)" ↔
      ruleMatch "delete from t" = some "delete\\s+from\\s+\\w+\\s*(?!where)" :=
  rule_matching_case_insensitive.1 "DELETE FROM t" "delete from t"
    "delete\\s+from\\s+\\w+\\s*(?!where)" (by decide)

/-- C9: classification is deterministic — evaluating the same query text
under the same model state yields the identical verdict, both the
dangerous flag and the reason. -/
theorem classification_deterministic (m₁ m₂ : DetectorModel) (q₁ q₂ : String)
    (hm : m₁ = m₂) (hq : q₁ = q₂) :
    check_dangerous_queries m₁ q₁ = check_dangerous_queries m₂ q₂ ∧
      (check_dangerous_queries m₁ q₁).1 = (check_dangerous_queries m₂ q₂).1 ∧
      (check_dangerous_queries m₁ q₁).2 = (check_dangerous_queries m₂ q₂).2 := by
  subst hm
  subst hq
  exact ⟨rfl, rfl, rfl⟩

theorem classification_deterministic_witness :
    check_dangerous_queries trainedModel "drop database x" =
        check_dangerous_queries trainedModel "drop database x" ∧
      (check_dangerous_queries trainedModel "drop database x").1 =
        (check_dangerous_queries trainedModel "drop database x").1 ∧
      (check_dangerous_queries trainedModel "drop database x").2 =
        (check_dangerous_queries trainedModel "drop database x").2 :=
  classification_deterministic trainedModel trainedModel
    "drop database x" "drop database x" rfl rfl

/-- C5: the lookahead in the DELETE and UPDATE patterns is vacuous —
each pattern matches exactly when its lookahead-free version does, so a
qualified `delete from users where id = 1` still matches the DELETE
pattern (and analogously for UPDATE), contrary to the intended
"unqualified only" reading. -/
theorem delete_update_lookahead_vacuous :
    (∀ s : List Char, searchP pat_delete s = searchP pat_delete_nowhere s) ∧
      (∀ s : List Char, searchP pat_update s = searchP pat_update_nowhere s) ∧
      searchP pat_delete (lowered "delete from users where id = 1") = true ∧
      searchP pat_update (lowered "update accounts set balance = 0 where id = 1") = true ∧
      ruleMatch "delete from users where id = 1" =
        some "delete\\s+from\\s+\\w+\\s*(?!where)" :=
  ⟨searchP_delete_eq, searchP_update_eq, by decide, by decide, by decide⟩

/-- C10: whenever `check_dangerous_queries` returns a dangerous verdict,
the reason is non-null: one of the `DANGEROUS_PATTERNS` entries or the
ML-anomaly reason. -/
theorem dangerous_verdict_has_reason (m : DetectorModel) (q : String)
    (h : (check_dangerous_queries m q).1 = true) :
    ∃ r, (check_dangerous_queries m q).2 = some r ∧
      (r ∈ DANGEROUS_PATTERNS.map Prod.fst ∨ r = "ML-аномалия") := by
  unfold check_dangerous_queries at h ⊢
  by_cases hm : m.trained = false
  · rw [if_pos hm] at h
    simp at h
  · rw [if_neg hm] at h ⊢
    cases hr : ruleMatch q with
    | some pat =>
      refine ⟨pat, rfl, Or.inl ?_⟩
      unfold ruleMatch at hr
      obtain ⟨pr, hfind, hfst⟩ := Option.map_eq_some'.mp hr
      exact hfst ▸ List.mem_map_of_mem Prod.fst (List.mem_of_find?_eq_some hfind)
    | none =>
      cases hp : m.predict (extract_features q) with
      | ok p =>
        by_cases hneg : p = -1
        · exact ⟨"ML-аномалия", by simp [hneg], Or.inr rfl⟩
        · rw [hr, hp] at h
          simp [hneg] at h
      | error e =>
        rw [hr, hp] at h
        simp at h

theorem dangerous_verdict_has_reason_witness :
    ∃ r, (check_dangerous_queries anomalousModel "hello").2 = some r ∧
      (r ∈ DANGEROUS_PATTERNS.map Prod.fst ∨ r = "ML-аномалия") :=
  dangerous_verdict_has_reason anomalousModel "hello" (by decide)

/-- C1 counterexample: `delete from users` contains an unqualified
DELETE, yet with an untrained model `check_dangerous_queries` returns
not-dangerous with the untrained reason — the untrained guard runs
before the rule loop, so the rule match does not short-circuit. -/
theorem untrained_skips_delete_rule_cex :
    specUnqualifiedDelete "delete from users" = true ∧
      check_dangerous_queries untrainedModel "delete from users" =
        (false, some "Модель не обучена") := by decide

/-- C1 (amended): only when the model is trained does a query containing
an unqualified DELETE get a dangerous verdict, with the first matching
entry of `DANGEROUS_PATTERNS` as reason; the result is then independent
of the trained model's predictions (rules short-circuit before the ML
step). With an untrained model the untrained guard returns first. -/
theorem unqualified_delete_flagged_only_when_trained (m : DetectorModel) (q : String)
    (hm : m.trained = true) (hq : specUnqualifiedDelete q = true) :
    ∃ p, check_dangerous_queries m q = (true, some p) ∧
      p ∈ DANGEROUS_PATTERNS.map Prod.fst ∧
      ∀ m' : DetectorModel, m'.trained = true →
        check_dangerous_queries m' q = check_dangerous_queries m q := by
  have hsearch : searchP pat_delete (lowered q) = true := by
    rw [searchP_delete_eq]
    have h := hq
    simp only [specUnqualifiedDelete, Bool.and_eq_true] at h
    exact h.1
  have hfind : (DANGEROUS_PATTERNS.find? fun pr => searchP pr.2 (lowered q)).isSome := by
    apply List.find?_isSome.mpr
    refine ⟨("delete\\s+from\\s+\\w+\\s*(?!where)", pat_delete), ?_, ?_⟩
    · simp [DANGEROUS_PATTERNS]
    · simpa using hsearch
  obtain ⟨pr, hpr⟩ := Option.isSome_iff_exists.mp hfind
  have hrm : ruleMatch q = some pr.1 := by
    unfold ruleMatch
    rw [hpr]
    rfl
  have heval : ∀ m' : DetectorModel, m'.trained = true →
      check_dangerous_queries m' q = (true, some pr.1) := by
    intro m' hm'
    unfold check_dangerous_queries
    rw [hm', hrm]
    simp
  refine ⟨pr.1, heval m hm, ?_, fun m' hm' => (heval m' hm').trans (heval m hm).symm⟩
  exact List.mem_map_of_mem Prod.fst (List.mem_of_find?_eq_some hpr)

theorem unqualified_delete_flagged_only_when_trained_witness :
    ∃ p, check_dangerous_queries trainedModel "delete from users" = (true, some p) ∧
      p ∈ DANGEROUS_PATTERNS.map Prod.fst ∧
      ∀ m' : DetectorModel, m'.trained = true →
        check_dangerous_queries m' "delete from users" =
          check_dangerous_queries trainedModel "delete from users" :=
  unqualified_delete_flagged_only_when_trained trainedModel "delete from users"
    rfl (by decide)

/-- C2 counterexample: in a cycle whose poll returns one record, the
trace writes the checkpoint at index 0 and classifies the record at
index 1 — so it is false that every classification precedes the
checkpoint write. -/
theorem checkpoint_written_before_batch_cex :
    ¬ ∀ (env : CycleEnv) (i j : Nat) (t msg : String) (v : Bool × Option String),
        (monitor_logs env).get? i = some (.checkpointWrite t) →
        (monitor_logs env).get? j = some (.classified msg v) → j < i := by
  intro hclaim
  have h := hclaim oneDeleteEnv 0 1 "2024-05-01T10:00:00Z" "delete from users"
    (true, some "delete\\s+from\\s+\\w+\\s*(?!where)") (by decide) (by decide)
  omega

/-- C2 (amended): in every monitoring cycle the checkpoint write, when it
happens, strictly precedes every record classification of the batch —
the new `last_checked_time` is persisted immediately after a non-empty
poll and before any record is classified (at-most-once, not
at-least-once). -/
theorem checkpoint_write_precedes_classification (env : CycleEnv) (i j : Nat)
    (t msg : String) (v : Bool × Option String)
    (hi : (monitor_logs env).get? i = some (.checkpointWrite t))
    (hj : (monitor_logs env).get? j = some (.classified msg v)) : i < j := by
  by_cases hc : env.connectionsOk = false
  · rw [monitor_logs_conn_false env hc] at hi
    have hmem := List.get?_mem hi
    simp at hmem
  · have hc' : env.connectionsOk = true := by
      revert hc
      cases env.connectionsOk <;> simp
    cases hs : env.store env.checkpointFile with
    | error e =>
      rw [monitor_logs_store_error env e hc' hs] at hi
      have hmem := List.get?_mem hi
      simp at hmem
    | ok hits =>
      cases hl : hits.getLast? with
      | none =>
        rw [monitor_logs_empty env hits hc' hs hl] at hi
        simp at hi
      | some lastHit =>
        rw [monitor_logs_nonempty env hits lastHit hc' hs hl] at hi hj
        cases i with
        | zero =>
          cases j with
          | zero =>
            rw [List.get?_cons_zero] at hj
            simp at hj
          | succ n => omega
        | succ n =>
          rw [List.get?_cons_succ] at hi
          exact absurd (List.get?_mem hi)
            (checkpointWrite_not_in_batch env.model hits t)

theorem checkpoint_write_precedes_classification_witness :
    (monitor_logs oneDeleteEnv).get? 0 =
        some (.checkpointWrite "2024-05-01T10:00:00Z") ∧
      (monitor_logs oneDeleteEnv).get? 1 =
        some (.classified "delete from users"
          (true, some "delete\\s+from\\s+\\w+\\s*(?!where)")) ∧
      (0 : Nat) < 1 :=
  ⟨by decide, by decide,
    checkpoint_write_precedes_classification oneDeleteEnv 0 1 "2024-05-01T10:00:00Z"
      "delete from users" (true, some "delete\\s+from\\s+\\w+\\s*(?!where)")
      (by decide) (by decide)⟩

/-- C3 counterexample: when every one of the 3 training attempts fails,
`main` does not proceed to the running state — it aborts without
starting the scheduler, refuting the rule-only fallback. -/
theorem training_failure_rule_only_cex :
    mainOutcome true [.ok false, .ok false, .ok false] = .abortNoTraining ∧
      mainOutcome true [.ok false, .ok false, .ok false] ≠ .schedulerStarted := by
  constructor
  · rfl
  · intro h
    exact absurd h (by simp [mainOutcome, trainedAfterAttempts])

/-- C3 (amended): if the trained flag is still false after the bounded
retry loop (all attempts returned false or raised), `main` sends a
critical alert and returns without starting the monitoring loop; there
is no rule-only fallback. -/
theorem training_failure_aborts_startup (attempts : List (Except String Bool))
    (hfail : trainedAfterAttempts attempts = false) :
    mainOutcome true attempts = .abortNoTraining := by
  simp [mainOutcome, hfail]

theorem training_failure_aborts_startup_witness :
    mainOutcome true [.error "search failed", .error "search failed",
      .error "search failed"] = .abortNoTraining :=
  training_failure_aborts_startup
    [.error "search failed", .error "search failed", .error "search failed"] rfl

/-- C4 counterexample: a cycle in which the log store or notification
channel is unreachable ends with `exit(1)` escaping the cycle's
exception handler — process termination is in the trace, refuting
"a cycle failure after startup never terminates the process". -/
theorem connection_failure_exits_cex :
    connDownEnv.connectionsOk = false ∧
      Event.processExit ∈ monitor_logs connDownEnv := by
  exact ⟨rfl, by decide⟩

/-- C4 (amended): failures raised inside the cycle body after the
connection check (e.g. the search raising) are caught at the cycle
boundary and turned into a best-effort alert without terminating the
process; but a failed per-cycle connection check calls `exit(1)`, which
the cycle's `except Exception` does not catch, terminating the process. -/
theorem cycle_error_containment (env : CycleEnv) :
    (env.connectionsOk = true → Event.processExit ∉ monitor_logs env) ∧
      (env.connectionsOk = false → Event.processExit ∈ monitor_logs env) ∧
      (∀ e, env.connectionsOk = true → env.store env.checkpointFile = .error e →
        monitor_logs env = [.cycleErrorAlert e]) := by
  refine ⟨?_, ?_, ?_⟩
  · intro hok hmem
    cases hs : env.store env.checkpointFile with
    | error e =>
      rw [monitor_logs_store_error env e hok hs] at hmem
      simp at hmem
    | ok hits =>
      cases hl : hits.getLast? with
      | none =>
        rw [monitor_logs_empty env hits hok hs hl] at hmem
        simp at hmem
      | some lastHit =>
        rw [monitor_logs_nonempty env hits lastHit hok hs hl] at hmem
        rcases List.mem_cons.mp hmem with h1 | h2
        · simp at h1
        · exact processExit_not_in_batch env.model hits h2
  · intro hbad
    rw [monitor_logs_conn_false env hbad]
    simp
  · intro e hok hs
    exact monitor_logs_store_error env e hok hs

theorem cycle_error_containment_witness :
    Event.processExit ∉ monitor_logs searchFailEnv ∧
      monitor_logs searchFailEnv = [.cycleErrorAlert "ConnectionTimeout"] :=
  ⟨(cycle_error_containment searchFailEnv).1 rfl,
    (cycle_error_containment searchFailEnv).2.2 "ConnectionTimeout" rfl rfl⟩

end MLModule
